import Mathlib

/-!
Shallow embedding of the storage-wrapper web client (the richest variant of
the file-manager component) together with proofs about its listing, tree
cache, role derivation, upload and polling behaviour.

The embedding is sequential: every awaited HTTP call is modelled as a query
to an explicit environment, and each handler returns its final component
state together with the ordered trace of HTTP requests it issued.
-/

namespace StorageWrapper

/-! ## JSON values, as produced by the platform JSON.parse -/

/-- JSON values. Numbers keep their raw source text: the component never
computes with numbers, and raw text keeps equality faithful to the
strict-equality semantics the component relies on. -/
inductive Json where
  | null
  | bool (b : Bool)
  | num (raw : String)
  | str (s : String)
  | arr (elems : List Json)
  | obj (fields : List (String × Json))

/-! ## Base64 decoding, modelling the platform atob (forgiving-base64) -/

/-- Value of one base64 alphabet character. -/
def b64Val (c : Char) : Option Nat :=
  if 'A' ≤ c ∧ c ≤ 'Z' then some (c.toNat - 65)
  else if 'a' ≤ c ∧ c ≤ 'z' then some (c.toNat - 97 + 26)
  else if '0' ≤ c ∧ c ≤ '9' then some (c.toNat - 48 + 52)
  else if c = '+' then some 62
  else if c = '/' then some 63
  else none

/-- Reassemble 6-bit values into bytes; leftover bits of a trailing group of
two or three characters are discarded, as forgiving-base64 prescribes. -/
def b64Bytes : List Nat → List Nat
  | a :: b :: c :: d :: rest =>
      (a * 4 + b / 16) :: ((b % 16) * 16 + c / 4) :: ((c % 4) * 64 + d) :: b64Bytes rest
  | [a, b] => [a * 4 + b / 16]
  | [a, b, c] => [a * 4 + b / 16, (b % 16) * 16 + c / 4]
  | _ => []

/-- Drop up to two trailing padding characters. -/
def stripPad (cs : List Char) : List Char :=
  let cs1 := if cs.getLast? = some '=' then cs.dropLast else cs
  if cs1.getLast? = some '=' then cs1.dropLast else cs1

/-- ASCII whitespace, removed by forgiving-base64 before decoding. -/
def isAsciiWs (c : Char) : Bool :=
  c = ' ' ∨ c = '\t' ∨ c = '\n' ∨ c = '\x0c' ∨ c = '\r'

/-- Model of the platform atob: forgiving-base64 decode to a byte list,
failing on a remainder-1 length or characters outside the alphabet. -/
def atobBytes (cs0 : List Char) : Option (List Nat) :=
  let cs := cs0.filter (fun c => ¬ isAsciiWs c)
  let cs := if cs.length % 4 = 0 then stripPad cs else cs
  if cs.length % 4 = 1 then none
  else (cs.mapM b64Val).map b64Bytes

/-! ## Strict UTF-8 decoding, modelling decodeURIComponent on %-encoded
bytes (rejects stray continuations, overlongs, surrogates, > U+10FFFF) -/

/-- Is the byte a UTF-8 continuation byte? -/
def isCont (b : Nat) : Bool := 0x80 ≤ b ∧ b ≤ 0xBF

/-- Strict UTF-8 decode of a byte list. -/
def utf8Decode : List Nat → Option (List Char)
  | [] => some []
  | b :: rest =>
    if b ≤ 0x7F then (utf8Decode rest).map (fun cs => Char.ofNat b :: cs)
    else if b < 0xC2 then none
    else if b ≤ 0xDF then
      match rest with
      | b2 :: r2 =>
        if isCont b2 then
          (utf8Decode r2).map (fun cs => Char.ofNat ((b - 0xC0) * 64 + (b2 - 0x80)) :: cs)
        else none
      | _ => none
    else if b ≤ 0xEF then
      match rest with
      | b2 :: b3 :: r2 =>
        if isCont b2 ∧ isCont b3 then
          let v := (b - 0xE0) * 4096 + (b2 - 0x80) * 64 + (b3 - 0x80)
          if v < 0x800 then none
          else if 0xD800 ≤ v ∧ v ≤ 0xDFFF then none
          else (utf8Decode r2).map (fun cs => Char.ofNat v :: cs)
        else none
      | _ => none
    else if b ≤ 0xF4 then
      match rest with
      | b2 :: b3 :: b4 :: r2 =>
        if isCont b2 ∧ isCont b3 ∧ isCont b4 then
          let v := (b - 0xF0) * 262144 + (b2 - 0x80) * 4096 + (b3 - 0x80) * 64 + (b4 - 0x80)
          if v < 0x10000 ∨ 0x10FFFF < v then none
          else (utf8Decode r2).map (fun cs => Char.ofNat v :: cs)
        else none
      | _ => none
    else none

/-! ## JSON text parsing, modelling the platform JSON.parse -/

/-- JSON insignificant whitespace. -/
def skipWs (cs : List Char) : List Char :=
  cs.dropWhile (fun c => c = ' ' ∨ c = '\t' ∨ c = '\n' ∨ c = '\r')

/-- Hexadecimal digit value. -/
def hexVal (c : Char) : Option Nat :=
  if '0' ≤ c ∧ c ≤ '9' then some (c.toNat - 48)
  else if 'a' ≤ c ∧ c ≤ 'f' then some (c.toNat - 97 + 10)
  else if 'A' ≤ c ∧ c ≤ 'F' then some (c.toNat - 65 + 10)
  else none

/-- Parse the remainder of a JSON string literal (the opening quote already
consumed), handling the escape sequences JSON.parse accepts.  The fuel is
one more than the input length; every step consumes at least one char. -/
def parseStrBody : Nat → List Char → List Char → Option (String × List Char)
  | 0, _, _ => none
  | Nat.succ _, [], _ => none
  | Nat.succ _, '"' :: rest, acc => some (String.mk acc.reverse, rest)
  | Nat.succ fuel, '\\' :: rest, acc =>
    match rest with
    | [] => none
    | e :: r2 =>
      if e = '"' then parseStrBody fuel r2 ('"' :: acc)
      else if e = '\\' then parseStrBody fuel r2 ('\\' :: acc)
      else if e = '/' then parseStrBody fuel r2 ('/' :: acc)
      else if e = 'b' then parseStrBody fuel r2 ('\x08' :: acc)
      else if e = 'f' then parseStrBody fuel r2 ('\x0c' :: acc)
      else if e = 'n' then parseStrBody fuel r2 ('\n' :: acc)
      else if e = 'r' then parseStrBody fuel r2 ('\r' :: acc)
      else if e = 't' then parseStrBody fuel r2 ('\t' :: acc)
      else if e = 'u' then
        match r2 with
        | h1 :: h2 :: h3 :: h4 :: r3 =>
          match hexVal h1, hexVal h2, hexVal h3, hexVal h4 with
          | some a, some b, some c, some d =>
            let n := ((a * 16 + b) * 16 + c) * 16 + d
            if 0xD800 ≤ n ∧ n ≤ 0xDBFF then
              match r3 with
              | '\\' :: 'u' :: g1 :: g2 :: g3 :: g4 :: r4 =>
                match hexVal g1, hexVal g2, hexVal g3, hexVal g4 with
                | some a2, some b2, some c2, some d2 =>
                  let m := ((a2 * 16 + b2) * 16 + c2) * 16 + d2
                  if 0xDC00 ≤ m ∧ m ≤ 0xDFFF then
                    parseStrBody fuel r4
                      (Char.ofNat (0x10000 + (n - 0xD800) * 1024 + (m - 0xDC00)) :: acc)
                  else none
                | _, _, _, _ => none
              | _ => none
            else if 0xDC00 ≤ n ∧ n ≤ 0xDFFF then none
            else parseStrBody fuel r3 (Char.ofNat n :: acc)
          | _, _, _, _ => none
        | _ => none
      else none
  | Nat.succ fuel, c :: rest, acc =>
    if c.toNat < 0x20 then none else parseStrBody fuel rest (c :: acc)

/-- Parse a JSON number token, returning its raw text. -/
def parseNum (cs : List Char) : Option (Json × List Char) :=
  let (sgn, cs1) := match cs with
    | '-' :: r => (['-'], r)
    | _ => (([] : List Char), cs)
  let intPart := cs1.takeWhile Char.isDigit
  let rest1 := cs1.dropWhile Char.isDigit
  if intPart = [] then none
  else if 1 < intPart.length ∧ intPart.head? = some '0' then none
  else
    let (fracPart, rest2) := match rest1 with
      | '.' :: r2 =>
        let fr := r2.takeWhile Char.isDigit
        if fr = [] then (none, rest1)
        else (some ('.' :: fr), r2.dropWhile Char.isDigit)
      | _ => (none, rest1)
    match fracPart with
    | none =>
      if rest2 ≠ rest1 then none else
      parseNumExp (sgn ++ intPart) rest1
    | some fp => parseNumExp (sgn ++ intPart ++ fp) rest2
where
  /-- Parse the optional exponent and finish the number. -/
  parseNumExp (raw : List Char) (cs : List Char) : Option (Json × List Char) :=
    match cs with
    | 'e' :: r | 'E' :: r =>
      let (esgn, r2) := match r with
        | '+' :: rr => (['+'], rr)
        | '-' :: rr => (['-'], rr)
        | _ => (([] : List Char), r)
      let ds := r2.takeWhile Char.isDigit
      if ds = [] then none
      else some (.num (String.mk (raw ++ 'e' :: esgn ++ ds)), r2.dropWhile Char.isDigit)
    | _ => some (.num (String.mk raw), cs)

mutual

/-- Parse one JSON value. -/
def parseVal : Nat → List Char → Option (Json × List Char)
  | 0, _ => none
  | Nat.succ fuel, cs =>
    match cs with
    | 'n' :: 'u' :: 'l' :: 'l' :: rest => some (.null, rest)
    | 't' :: 'r' :: 'u' :: 'e' :: rest => some (.bool true, rest)
    | 'f' :: 'a' :: 'l' :: 's' :: 'e' :: rest => some (.bool false, rest)
    | '"' :: rest =>
      (parseStrBody (rest.length + 1) rest []).map (fun p => (.str p.1, p.2))
    | '[' :: rest =>
      (match skipWs rest with
       | ']' :: r2 => some (.arr [], r2)
       | cs2 =>
         match parseVal fuel cs2 with
         | none => none
         | some (v, r2) => parseArrTail fuel r2 [v])
    | '{' :: rest =>
      (match skipWs rest with
       | '}' :: r2 => some (.obj [], r2)
       | cs2 =>
         match parseField fuel cs2 with
         | none => none
         | some (kv, r2) => parseObjTail fuel r2 [kv])
    | c :: _ => if c = '-' ∨ c.isDigit then parseNum cs else none
    | [] => none

/-- Parse the rest of an array after its first element. -/
def parseArrTail : Nat → List Char → List Json → Option (Json × List Char)
  | 0, _, _ => none
  | Nat.succ fuel, cs, acc =>
    match skipWs cs with
    | ']' :: r => some (.arr acc.reverse, r)
    | ',' :: r =>
      (match parseVal fuel (skipWs r) with
       | none => none
       | some (v, r2) => parseArrTail fuel r2 (v :: acc))
    | _ => none

/-- Parse one key-value member of an object. -/
def parseField : Nat → List Char → Option ((String × Json) × List Char)
  | 0, _ => none
  | Nat.succ fuel, cs =>
    match cs with
    | '"' :: rest =>
      (match parseStrBody (rest.length + 1) rest [] with
       | none => none
       | some (k, r) =>
         match skipWs r with
         | ':' :: r2 =>
           (match parseVal fuel (skipWs r2) with
            | none => none
            | some (v, r3) => some ((k, v), r3))
         | _ => none)
    | _ => none

/-- Parse the rest of an object after its first member. -/
def parseObjTail : Nat → List Char → List (String × Json) → Option (Json × List Char)
  | 0, _, _ => none
  | Nat.succ fuel, cs, acc =>
    match skipWs cs with
    | '}' :: r => some (.obj acc.reverse, r)
    | ',' :: r =>
      (match parseField fuel (skipWs r) with
       | none => none
       | some (kv, r2) => parseObjTail fuel r2 (kv :: acc))
    | _ => none

end

/-- Model of JSON.parse: whole input must be consumed up to whitespace. -/
def parseJson (cs : List Char) : Option Json :=
  match parseVal (2 * cs.length + 8) (skipWs cs) with
  | some (v, rest) => if skipWs rest = [] then some v else none
  | none => none

/-! ## decodeToken, from the source

The component splits the token on dots, takes segment 1, reverses the
URL-safe alphabet substitutions, base64-decodes it, percent-escapes the
bytes, URI-decodes them (net effect: strict UTF-8 decode) and parses the
result as JSON.  Any exception is an error to the caller. -/

/-- Split a character list at every dot, like the split on a dot used by
the component (adjacent dots give empty segments). -/
def splitDots : List Char → List (List Char)
  | [] => [[]]
  | c :: rest =>
    let r := splitDots rest
    if c = '.' then [] :: r
    else
      match r with
      | [] => [[c]]
      | h :: t => (c :: h) :: t

/-- Model of decodeToken: extract, decode and parse the payload segment of
a bearer token; any failure along the way is a decode error. -/
def decodeToken (token : String) : Except Unit Json :=
  match (splitDots token.toList)[1]? with
  | none => .error ()
  | some seg =>
    let b64 := seg.map (fun c => if c = '-' then '+' else if c = '_' then '/' else c)
    match atobBytes b64 with
    | none => .error ()
    | some bytes =>
      match utf8Decode bytes with
      | none => .error ()
      | some chars =>
        match parseJson chars with
        | none => .error ()
        | some v => .ok v

/-! ## Data model of the component state -/

/-- One blob, as listed by the gateway. -/
structure FileEntry where
  name : String
  fullPath : Option String
  size : Nat
deriving DecidableEq, Repr

/-- One virtual folder, as listed by the gateway. -/
structure FolderEntry where
  name : String
  path : String
  children : Nat
deriving DecidableEq, Repr

/-- Response body of a listing call; each field may be absent. -/
structure ListingResp where
  currentPath : Option String
  files : Option (List FileEntry)
  folders : Option (List FolderEntry)
deriving DecidableEq, Repr

/-- Response body of a small (single-request) upload. -/
structure UploadResp where
  path : Option String
deriving DecidableEq, Repr

/-- The three capability flags derived from the token's groups claim. -/
structure Roles where
  isReader : Bool
  isUploader : Bool
  isAdmin : Bool
deriving DecidableEq, Repr

/-- The three externally configured group identifiers. -/
structure GroupConfig where
  readerId : String
  uploaderId : String
  adminId : String
deriving DecidableEq, Repr

/-- Chunked-upload progress indicator state. -/
structure UploadProgress where
  current : Nat
  total : Nat
  filename : String
  committing : Bool
deriving DecidableEq, Repr

/-- The selected file: name, size in bytes, MIME type (empty if unknown). -/
structure JsFile where
  name : String
  size : Nat
  ftype : String
deriving DecidableEq, Repr

/-- Component state: the useState fields the claims are about. -/
structure FMState where
  files : List FileEntry
  folders : List FolderEntry
  currentPath : String
  loading : Bool
  error : Option String
  selectedFile : Option JsFile
  uploadProgress : Option UploadProgress
  treeCache : List (String × List FolderEntry)
  expandedPaths : List String
  userRoles : Roles
  newFolderName : String
  showCreateFolder : Bool
deriving DecidableEq, Repr

/-- Initial component state, mirroring the useState initialisers. -/
def initialState : FMState where
  files := []
  folders := []
  currentPath := "/"
  loading := false
  error := none
  selectedFile := none
  uploadProgress := none
  treeCache := []
  expandedPaths := ["/"]
  userRoles := ⟨false, false, false⟩
  newFolderName := ""
  showCreateFolder := false

/-! ## HTTP requests and the environment -/

/-- The kind of an HTTP request issued by the component, with the
parameters the component puts on it. -/
inductive ReqKind where
  | listReq (folder : Option String)
  | uploadReq (folder : Option String)
  | chunkReq (filename : String) (chunkIndex : Nat) (totalChunks : Nat) (folder : String)
  | commitReq (filename : String) (totalChunks : Nat) (contentType : String) (folder : String)
  | existsReq (path : String)
  | createFolderReq (folderPath : String)
deriving DecidableEq, Repr

/-- One HTTP request: the bearer string placed in the Authorization header
together with the request kind. -/
structure HttpReq where
  auth : String
  kind : ReqKind
deriving DecidableEq, Repr

/-- The external world: the token provider and the gateway endpoints.
Every field is a total function so handlers stay executable; an error
value models a thrown/rejected call. -/
structure Env where
  token : Except Unit String
  list : String → Option String → Except Unit ListingResp
  upload : String → Option String → Except Unit UploadResp
  chunk : String → String → Nat → Nat → String → Except Unit Unit
  commit : String → String → Nat → String → String → Except Unit Unit
  existsCheck : Nat → String → Except Unit Bool
  createFolder : String → String → Except Unit Unit

/-! ## Small helpers shared by the handlers -/

/-- JS-style fallback on a possibly absent string: absent or empty falls
back to the default. -/
def jsOrStr (o : Option String) (d : String) : String :=
  match o with
  | none => d
  | some s => if s = "" then d else s

/-- JS-style fallback on a plain string (empty is falsy). -/
def strOrDefault (s d : String) : String := if s = "" then d else s

/-- Whitespace as trimmed from input strings. -/
def isTrimWs (c : Char) : Bool :=
  c = ' ' ∨ c = '\t' ∨ c = '\n' ∨ c = '\r' ∨ c = '\x0b' ∨ c = '\x0c'

/-- Trim of a string, as the empty-input validations apply it. -/
def jsTrim (s : String) : String :=
  String.mk (((s.toList.dropWhile isTrimWs).reverse.dropWhile isTrimWs).reverse)

/-- Store folders under a path key, overwriting an existing entry, as the
object-spread update of the tree cache does. -/
def cacheInsert (c : List (String × List FolderEntry)) (k : String)
    (v : List FolderEntry) : List (String × List FolderEntry) :=
  if (c.lookup k).isSome then
    c.map (fun kv => if kv.1 = k then (k, v) else kv)
  else c ++ [(k, v)]

/-- Add a path to the expanded set (a JS Set: no duplicates). -/
def setInsert (s : List String) (x : String) : List String :=
  if x ∈ s then s else s ++ [x]

/-- The child folders the tree renders for a path: the cache entry's
folders, or the empty list when the path is absent from the cache. -/
def childrenFor (c : List (String × List FolderEntry)) (p : String) :
    List FolderEntry :=
  (c.lookup p).getD []

/-- Folder query parameter for a listing of the given logical path: the
root (or empty) path sends no parameter. -/
def listFolderParam (folderPath : String) : Option String :=
  if folderPath ≠ "" ∧ folderPath ≠ "/" then some folderPath else none

/-! ## The handlers, translated from the source -/

/-- Model of fetchFiles: perform the listing, store the result (and the
folders under the reported path in the tree cache), kick the secondary
root refresh when away from root, auto-expand the reported path; on
failure set the generic fetch error and leave listing state alone.
Returns the new state and the trace of issued requests. -/
def fetchFiles (env : Env) (st : FMState) (token : String)
    (folderPath : String := "") : FMState × List HttpReq :=
  let st0 := { st with loading := true, error := none }
  let param := listFolderParam folderPath
  let req : HttpReq := ⟨token, .listReq param⟩
  match env.list token param with
  | .error _ =>
    ({ st0 with loading := false, error := some "Failed to fetch files." }, [req])
  | .ok resp =>
    let cp := jsOrStr resp.currentPath "/"
    let st1 := { st0 with
      currentPath := cp,
      files := resp.files.getD [],
      folders := resp.folders.getD [],
      treeCache := cacheInsert st0.treeCache cp (resp.folders.getD []) }
    let pr :=
      if cp ≠ "/" then
        let rreq : HttpReq := ⟨token, .listReq none⟩
        match env.list token none with
        | .ok rresp =>
          let tc := cacheInsert st1.treeCache (jsOrStr rresp.currentPath "/")
            (rresp.folders.getD [])
          ({ st1 with treeCache := tc }, [rreq])
        | .error _ => (st1, [rreq])
      else (st1, [])
    ({ pr.1 with expandedPaths := setInsert pr.1.expandedPaths cp, loading := false },
     req :: pr.2)

/-- JS falsiness of a JSON value (null, false, zero and the empty string
are falsy). -/
def jsFalsy : Json → Bool
  | .null => true
  | .bool b => !b
  | .str s => s = ""
  | .num raw => (raw.toList.takeWhile (fun c => c ≠ 'e' ∧ c ≠ 'E')).all
      (fun c => c = '0' ∨ c = '-' ∨ c = '.')
  | _ => false

/-- The groups claim as the component reads it: indexing null throws, a
missing or falsy groups property falls back to the empty array (duplicate
keys resolve to the last occurrence, as object literals do). -/
def getGroupsClaim : Json → Except Unit Json
  | .null => .error ()
  | .obj kvs =>
    match (kvs.reverse).lookup "groups" with
    | none => .ok (.arr [])
    | some v => .ok (if jsFalsy v then .arr [] else v)
  | _ => .ok (.arr [])

/-- Membership of a configured identifier in a JSON array, with the
strict-equality semantics of the includes call: only an equal string
element matches. -/
def jsIncludesStr (xs : List Json) (x : String) : Bool :=
  xs.any (fun j => match j with | .str s => s = x | _ => false)

/-- Does the needle occur as a contiguous substring of the haystack? -/
def subOccurs (hay needle : List Char) : Bool :=
  (List.range (hay.length + 1)).any (fun i => needle.isPrefixOf (hay.drop i))

/-- The includes call on the groups value: array membership for arrays,
substring for strings, a TypeError for anything else. -/
def jsIncludes (groups : Json) (x : String) : Except Unit Bool :=
  match groups with
  | .arr xs => .ok (jsIncludesStr xs x)
  | .str s => .ok (subOccurs s.toList x.toList)
  | _ => .error ()

/-- Role derivation from the decoded payload and the configured group
identifiers, exactly as the component computes the three flags. -/
def deriveRoles (decoded : Json) (cfg : GroupConfig) : Except Unit Roles :=
  match getGroupsClaim decoded with
  | .error e => .error e
  | .ok groups =>
    match jsIncludes groups cfg.readerId, jsIncludes groups cfg.uploaderId,
        jsIncludes groups cfg.adminId with
    | .ok r, .ok u, .ok a => .ok ⟨r, u, a⟩
    | .error e, _, _ => .error e
    | _, .error e, _ => .error e
    | _, _, .error e => .error e

/-- Model of initializeComponent: acquire and decode the token, derive the
roles, then either fetch the listing or surface the permission error; any
failure up to role derivation surfaces the log-in-again error. -/
def initializeComponent (env : Env) (cfg : GroupConfig) (st : FMState) :
    FMState × List HttpReq :=
  match env.token with
  | .error _ =>
    ({ st with error := some "Failed to initialize. Please log in again." }, [])
  | .ok token =>
    match decodeToken token with
    | .error _ =>
      ({ st with error := some "Failed to initialize. Please log in again." }, [])
    | .ok decoded =>
      match deriveRoles decoded cfg with
      | .error _ =>
        ({ st with error := some "Failed to initialize. Please log in again." }, [])
      | .ok roles =>
        let st1 := { st with userRoles := roles }
        if roles.isReader || roles.isUploader || roles.isAdmin then
          fetchFiles env st1 token
        else
          ({ st1 with error := some "You do not have permission to access files." }, [])

/-- Folder query parameter used by toggleExpand for a tree path. -/
def toggleFolderParam (path : String) : Option String :=
  let qPath := if path = "/" then "" else path
  if qPath ≠ "" ∧ qPath ≠ "/" then some qPath else none

/-- Model of toggleExpand: flip membership in the expanded set; on the
transition to expanded with a cache miss, load the path's listing and
store its folders, swallowing any failure with only a log line. -/
def toggleExpand (env : Env) (st : FMState) (path : String) :
    FMState × List HttpReq :=
  if path ∈ st.expandedPaths then
    ({ st with expandedPaths := st.expandedPaths.filter (fun p => p ≠ path) }, [])
  else
    let next := setInsert st.expandedPaths path
    if (st.treeCache.lookup path).isSome then
      ({ st with expandedPaths := next }, [])
    else
      match env.token with
      | .error _ => ({ st with expandedPaths := next }, [])
      | .ok token =>
        let param := toggleFolderParam path
        let req : HttpReq := ⟨token, .listReq param⟩
        match env.list token param with
        | .error _ => ({ st with expandedPaths := next }, [req])
        | .ok resp =>
          ({ st with
              treeCache := cacheInsert st.treeCache (jsOrStr resp.currentPath "/")
                (resp.folders.getD []),
              expandedPaths := next }, [req])

/-! ## Upload: chunk math, the chunked flow, polling, the main handler -/

/-- Fixed chunk size: 50 MiB. -/
def CHUNK_SIZE : Nat := 50 * 1024 * 1024

/-- Threshold above which the chunked strategy is used: 100 MiB. -/
def USE_CHUNKED_THRESHOLD : Nat := 100 * 1024 * 1024

/-- Number of chunks for a file size: the ceiling of size over the chunk
size. -/
def totalChunksOf (size : Nat) : Nat := (size + CHUNK_SIZE - 1) / CHUNK_SIZE

/-- Folder sent with chunk and commit requests: empty at root. -/
def chunkFolderOf (currentPath : String) : String :=
  if currentPath = "/" then "" else currentPath

/-- Content type sent with the commit: the file's type or the octet-stream
fallback. -/
def contentTypeOf (file : JsFile) : String :=
  strOrDefault file.ftype "application/octet-stream"

/-- Sequentially upload the chunks with the given indices; each successful
chunk advances the progress indicator, the first failure aborts with the
progress left as it was.  Returns state, trace, and success flag. -/
def chunkLoop (env : Env) (token fname folder : String) (total : Nat)
    (st : FMState) : List Nat → FMState × List HttpReq × Bool
  | [] => (st, [], true)
  | i :: rest =>
    let req : HttpReq := ⟨token, .chunkReq fname i total folder⟩
    match env.chunk token fname i total folder with
    | .error _ => (st, [req], false)
    | .ok _ =>
      let st1 := { st with uploadProgress := some ⟨i + 1, total, fname, false⟩ }
      let r := chunkLoop env token fname folder total st1 rest
      (r.1, req :: r.2.1, r.2.2)

/-- The tail of handleChunkedUpload after the chunk loop: when the loop
succeeded, switch the progress indicator to committing and issue the
single commit request; success clears the indicator, failure leaves it.
When the loop failed, its failure propagates unchanged. -/
def commitStep (env : Env) (token : String) (file : JsFile) (total : Nat)
    (folder : String) (r : FMState × List HttpReq × Bool) :
    FMState × List HttpReq × Bool :=
  if r.2.2 then
    let st2 := { r.1 with uploadProgress := some ⟨total, total, file.name, true⟩ }
    let creq : HttpReq :=
      ⟨token, .commitReq file.name total (contentTypeOf file) folder⟩
    match env.commit token file.name total (contentTypeOf file) folder with
    | .error _ => (st2, r.2.1 ++ [creq], false)
    | .ok _ => ({ st2 with uploadProgress := none }, r.2.1 ++ [creq], true)
  else (r.1, r.2.1, false)

/-- Model of handleChunkedUpload: initial progress, the sequential chunk
loop over all chunk indices, then the single commit step; success clears
the progress indicator, failure propagates to the caller with the
progress indicator still set. -/
def handleChunkedUpload (env : Env) (st : FMState) (file : JsFile)
    (token : String) : FMState × List HttpReq × Bool :=
  let prog : UploadProgress := ⟨0, totalChunksOf file.size, file.name, false⟩
  commitStep env token file (totalChunksOf file.size)
    (chunkFolderOf st.currentPath)
    (chunkLoop env token file.name (chunkFolderOf st.currentPath)
      (totalChunksOf file.size)
      { st with uploadProgress := some prog }
      (List.range (totalChunksOf file.size)))

/-- Maximum number of existence-poll attempts. -/
def maxAttempts : Nat := 100

/-- Poll interval in milliseconds. -/
def pollIntervalMs : Nat := 3000

/-- Model of the existence-polling interval: each tick bumps the attempt
counter and asks the exists endpoint; a true answer stops and refreshes
the listing, a false answer or a failed request continues until the
attempt counter reaches the maximum.  The fuel only serves totality and is
instantiated with the attempt maximum.  The Bool reports whether the
listing was refreshed. -/
def pollLoop (env : Env) (token startedPath : String) (st : FMState) :
    Nat → Nat → FMState × List HttpReq × Bool
  | 0, _ => (st, [], false)
  | Nat.succ fuel, attempts =>
    let a := attempts + 1
    let req : HttpReq := ⟨token, .existsReq startedPath⟩
    match env.existsCheck a startedPath with
    | .ok true =>
      let refreshFolder := if st.currentPath = "/" then "" else st.currentPath
      let pr := fetchFiles env st token refreshFolder
      (pr.1, req :: pr.2, true)
    | .ok false =>
      if maxAttempts ≤ a then (st, [req], false)
      else
        let r := pollLoop env token startedPath st fuel a
        (r.1, req :: r.2.1, r.2.2)
    | .error _ =>
      if maxAttempts ≤ a then (st, [req], false)
      else
        let r := pollLoop env token startedPath st fuel a
        (r.1, req :: r.2.1, r.2.2)

/-- The continuation of handleUpload after a chunked flow: on success,
clear the selection and error and refresh the current listing; on
failure, surface the generic upload error.  The loading flag is reset
either way (the finally block). -/
def uploadChunkedFlow (env : Env) (token : String)
    (r : FMState × List HttpReq × Bool) : FMState × List HttpReq :=
  if r.2.2 then
    let st2 := { r.1 with selectedFile := none, error := none }
    let refreshFolder := if st2.currentPath = "/" then "" else st2.currentPath
    let pr := fetchFiles env st2 token refreshFolder
    ({ pr.1 with loading := false }, r.2.1 ++ pr.2)
  else
    ({ r.1 with loading := false, error := some "Failed to upload file." }, r.2.1)

/-- The single-request strategy of handleUpload: one multipart upload to
the listing endpoint; on success, start the existence-polling loop on the
path the server reports (or the locally computed target path); on
failure, surface the generic upload error. -/
def uploadSingleFlow (env : Env) (st : FMState) (file : JsFile)
    (token : String) : FMState × List HttpReq :=
  let targetFolder := if st.currentPath = "/" then "" else st.currentPath
  let param := if targetFolder = "" then none else some targetFolder
  let ureq : HttpReq := ⟨token, .uploadReq param⟩
  match env.upload token param with
  | .error _ =>
    ({ st with loading := false, error := some "Failed to upload file." }, [ureq])
  | .ok resp =>
    let startedPath := jsOrStr resp.path
      (if targetFolder ≠ "" then targetFolder ++ "/" ++ file.name else file.name)
    let st1 := { st with selectedFile := none, error := none, loading := false }
    let r := pollLoop env token startedPath st1 maxAttempts 0
    (r.1, ureq :: r.2.1)

/-- Model of handleUpload: require a selected file, acquire a token, pick
the strategy by size; the chunked flow refreshes the listing on success,
the single-request flow starts the existence-polling loop on success; any
thrown failure surfaces the generic upload error. -/
def handleUpload (env : Env) (st : FMState) : FMState × List HttpReq :=
  match st.selectedFile with
  | none => ({ st with error := some "Please select a file." }, [])
  | some file =>
    let st0 := { st with loading := true }
    match env.token with
    | .error _ =>
      ({ st0 with loading := false, error := some "Failed to upload file." }, [])
    | .ok token =>
      if USE_CHUNKED_THRESHOLD < file.size then
        uploadChunkedFlow env token (handleChunkedUpload env st0 file token)
      else
        uploadSingleFlow env st0 file token

/-- Model of handleCreateFolder, including the slip on its refresh line:
the source calls its listing helper with the current path in the token
position and nothing in the path position. -/
def handleCreateFolder (env : Env) (st : FMState) : FMState × List HttpReq :=
  if jsTrim st.newFolderName = "" then
    ({ st with error := some "Folder name cannot be empty." }, [])
  else
    let st0 := { st with loading := true }
    match env.token with
    | .error _ =>
      ({ st0 with loading := false, error := some "Failed to create folder." }, [])
    | .ok token =>
      let folderPath :=
        if st0.currentPath = "/" then st0.newFolderName
        else st0.currentPath ++ "/" ++ st0.newFolderName
      let creq : HttpReq := ⟨token, .createFolderReq folderPath⟩
      match env.createFolder token folderPath with
      | .error _ =>
        ({ st0 with loading := false, error := some "Failed to create folder." }, [creq])
      | .ok _ =>
        let newFolder : FolderEntry := ⟨st0.newFolderName, folderPath, 0⟩
        let folders1 :=
          if st0.folders.any (fun f => f.path = folderPath) then st0.folders
          else st0.folders ++ [newFolder]
        let key := if st0.currentPath = "/" then "/" else st0.currentPath
        let existing := childrenFor st0.treeCache key
        let nextFolders :=
          if existing.any (fun f => f.path = folderPath) then existing
          else existing ++ [newFolder]
        let st1 := { st0 with
          folders := folders1,
          treeCache := cacheInsert st0.treeCache key nextFolders,
          expandedPaths := setInsert st0.expandedPaths key,
          newFolderName := "",
          showCreateFolder := false,
          error := none }
        let pr := fetchFiles env st1 st1.currentPath ""
        ({ pr.1 with loading := false }, creq :: pr.2)

/-! ## Trace classification helpers -/

/-- Is a request one of the three upload-carrying kinds (single-request
upload, chunk, commit)?  Listing and existence polls are not. -/
def isUploadish : ReqKind → Bool
  | .uploadReq _ => true
  | .chunkReq _ _ _ _ => true
  | .commitReq _ _ _ _ => true
  | _ => false

/-- The upload-carrying request kinds of a trace, in order. -/
def uploadishOf (reqs : List HttpReq) : List ReqKind :=
  (reqs.map HttpReq.kind).filter isUploadish

/-- Is a request an existence poll? -/
def isExistsReq : ReqKind → Bool
  | .existsReq _ => true
  | _ => false

/-- Number of existence-poll requests in a trace. -/
def existsCountOf (reqs : List HttpReq) : Nat :=
  ((reqs.map HttpReq.kind).filter isExistsReq).length

/-! ## Concrete environments and states used by the witnesses -/

/-- A gateway where every endpoint succeeds and the blob never appears. -/
def okEnv : Env where
  token := .ok "tok"
  list := fun _ _ => .ok ⟨some "/", some [], some []⟩
  upload := fun _ _ => .ok ⟨none⟩
  chunk := fun _ _ _ _ _ => .ok ()
  commit := fun _ _ _ _ _ => .ok ()
  existsCheck := fun _ _ => .ok false
  createFolder := fun _ _ => .ok ()

/-- A 150 MiB file, which exceeds the chunked-upload threshold. -/
def bigFile : JsFile := ⟨"big.bin", 157286400, ""⟩

/-- State with the big file selected at the root path. -/
def bigFileState : FMState := { initialState with selectedFile := some bigFile }

/-- A gateway whose chunk endpoint always rejects. -/
def chunkFailEnv : Env := { okEnv with chunk := fun _ _ _ _ _ => .error () }

/-- A gateway whose listing endpoint always rejects. -/
def listFailEnv : Env := { okEnv with list := fun _ _ => .error () }

/-- State inside folder /a with the folder-name input holding docs. -/
def createFolderState : FMState :=
  { initialState with currentPath := "/a", newFolderName := "docs" }

/-- Listing responses of the gateway behind treeEnv. -/
def treeList (p : Option String) : Except Unit ListingResp :=
  if p = some "/docs" then .ok ⟨some "/docs", some [], some [⟨"sub", "/docs/sub", 1⟩]⟩
  else .ok ⟨some "/", some [], some []⟩

/-- A gateway whose listing of /docs reports one child folder. -/
def treeEnv : Env := { okEnv with list := fun _ p => treeList p }

/-- A bearer token whose payload decodes to a groups claim that is the
empty array. -/
def emptyGroupsToken : String := "h.eyJncm91cHMiOltdfQ=="

/-- A gateway handing out the empty-groups token. -/
def emptyGroupsEnv : Env := { okEnv with token := .ok emptyGroupsToken }

/-- A gateway handing out a token with no payload segment at all. -/
def badTokenEnv : Env := { okEnv with token := .ok "garbage" }

/-- A gateway handing out the two-segment token a.e30, whose payload
segment decodes to the empty JSON object. -/
def twoSegmentEnv : Env := { okEnv with token := .ok "a.e30" }

/-- The three configured group identifiers used by the witnesses. -/
def wCfg : GroupConfig := ⟨"reader-guid", "uploader-guid", "admin-guid"⟩

/-- State whose tree cache already holds an entry for /docs. -/
def cachedState : FMState :=
  { initialState with treeCache := [("/docs", [⟨"sub", "/docs/sub", 1⟩])] }

/-- Either the token acquisition fails, or the listing for the path's
toggle query fails: the two ways the tree-node load can go wrong. -/
def tokenOrListFails (env : Env) (path : String) : Prop :=
  match env.token with
  | .error _ => True
  | .ok t => env.list t (toggleFolderParam path) = .error ()

/-- Folder query parameter of the single-request upload: the computed
target folder, or no parameter at the root. -/
def uploadFolderParamOf (p : String) : Option String :=
  if (if p = "/" then "" else p) = "" then none
  else some (if p = "/" then "" else p)

/-! ## Theorems -/

/-- Claim C2 (code bug evidence): when the first chunk request of a
chunked upload fails, handleUpload reports the generic upload failure but
leaves the uploadProgress indicator set at its last value instead of
clearing it, so a dangling progress indicator remains. -/
theorem chunked_failure_leaves_progress_dangling :
    (handleUpload chunkFailEnv bigFileState).1.uploadProgress =
      some ⟨0, 3, "big.bin", false⟩ ∧
    (handleUpload chunkFailEnv bigFileState).1.error =
      some "Failed to upload file." := by
  constructor <;> rfl

/-- The success path, for contrast with the failing one: when every chunk
and the commit succeed, the progress indicator is cleared. -/
theorem chunked_success_clears_progress :
    (handleUpload okEnv bigFileState).1.uploadProgress = none := by rfl

/-- Claim C3 (code bug evidence): after a successful folder creation at
current path /a with a freshly acquired token tok, the refresh request the
handler issues carries the current path string in the Authorization slot
instead of the token, and carries no folder parameter, so it targets the
root listing rather than the current path. -/
theorem createFolder_refresh_misuses_token :
    (handleCreateFolder listFailEnv createFolderState).2 =
      [⟨"tok", .createFolderReq "/a/docs"⟩, ⟨"/a", .listReq none⟩] ∧
    createFolderState.currentPath = "/a" ∧
    listFailEnv.token = .ok "tok" ∧ ("/a" : String) ≠ "tok" := by
  refine ⟨by decide, by decide, by rfl, by decide⟩

/-- Claim C9: toggling a path to expanded when it is already a key of the
tree cache performs no network request and leaves the whole tree cache
unchanged. -/
theorem cached_toggle_no_requests (env : Env) (st : FMState) (p : String)
    (fs : List FolderEntry)
    (hexp : p ∉ st.expandedPaths)
    (hcache : st.treeCache.lookup p = some fs) :
    (toggleExpand env st p).2 = [] ∧
    (toggleExpand env st p).1.treeCache = st.treeCache := by
  unfold toggleExpand
  simp [hexp, hcache]

/-- Claim C9 witness: a concrete cached path, toggled, with zero requests
and an unchanged cache. -/
theorem cached_toggle_no_requests_witness :
    (toggleExpand listFailEnv cachedState "/docs").2 = [] ∧
    (toggleExpand listFailEnv cachedState "/docs").1.treeCache =
      cachedState.treeCache :=
  cached_toggle_no_requests listFailEnv cachedState "/docs"
    [⟨"sub", "/docs/sub", 1⟩] (by decide) (by rfl)

/-- Claim C10: toggling a path to expanded still adds it to the expanded
set when the tree-node load fails (token acquisition or listing failure):
the error state and the cache are untouched, and while the cache has no
entry for the path the expanded node renders an empty child list. -/
theorem toggle_failure_still_expands (env : Env) (st : FMState) (p : String)
    (hexp : p ∉ st.expandedPaths)
    (hcache : st.treeCache.lookup p = none)
    (hfail : tokenOrListFails env p) :
    p ∈ (toggleExpand env st p).1.expandedPaths ∧
    (toggleExpand env st p).1.error = st.error ∧
    (toggleExpand env st p).1.treeCache = st.treeCache ∧
    childrenFor (toggleExpand env st p).1.treeCache p = [] := by
  unfold toggleExpand
  unfold tokenOrListFails at hfail
  cases htok : env.token with
  | error e =>
    simp [hexp, hcache, htok, setInsert, childrenFor, hexp]
  | ok t =>
    rw [htok] at hfail
    simp [hexp, hcache, htok, hfail, setInsert, childrenFor]

/-- Claim C10 witness: a concrete failing load still expands the node and
renders no children. -/
theorem toggle_failure_still_expands_witness :
    "/docs" ∈ (toggleExpand listFailEnv initialState "/docs").1.expandedPaths ∧
    (toggleExpand listFailEnv initialState "/docs").1.error = initialState.error ∧
    (toggleExpand listFailEnv initialState "/docs").1.treeCache =
      initialState.treeCache ∧
    childrenFor (toggleExpand listFailEnv initialState "/docs").1.treeCache
      "/docs" = [] :=
  toggle_failure_still_expands listFailEnv initialState "/docs"
    (by decide) (by rfl) (by rfl)

/-- Looking up a key after the replace-style map of cacheInsert finds the
new value, provided the key was present. -/
lemma lookup_cons_self (a : String) (b : List FolderEntry)
    (l : List (String × List FolderEntry)) :
    List.lookup a ((a, b) :: l) = some b := by
  simp [List.lookup]

/-- One lookup step past a head with a different key. -/
lemma lookup_cons_ne (a k : String) (b : List FolderEntry)
    (l : List (String × List FolderEntry)) (h : ¬ k = a) :
    List.lookup k ((a, b) :: l) = List.lookup k l := by
  have hba : (k == a) = false := beq_eq_false_iff_ne.mpr h
  simp [List.lookup, hba]

/-- Looking up a key after the replace-style map of cacheInsert finds the
new value, provided the key was present. -/
lemma lookup_replace (k : String) (v : List FolderEntry) :
    ∀ c : List (String × List FolderEntry), (c.lookup k).isSome →
    (c.map (fun kv => if kv.1 = k then (k, v) else kv)).lookup k = some v := by
  intro c
  induction c with
  | nil => intro h; simp [List.lookup] at h
  | cons kv rest ih =>
    obtain ⟨a, b⟩ := kv
    intro h
    by_cases hk : a = k
    · subst hk
      rw [List.map_cons]
      have hhd : (if (a, b).1 = a then (a, v) else (a, b)) = (a, v) := by simp
      rw [hhd, lookup_cons_self]
    · have hk' : ¬ k = a := fun he => hk he.symm
      rw [lookup_cons_ne a k b rest hk'] at h
      rw [List.map_cons]
      have hhd : (if (a, b).1 = k then (k, v) else (a, b)) = (a, b) := by simp [hk]
      rw [hhd, lookup_cons_ne a k b _ hk']
      exact ih h

/-- Looking up a key that is absent from the front list finds it in the
appended singleton. -/
lemma lookup_append_self (k : String) (v : List FolderEntry) :
    ∀ c : List (String × List FolderEntry), c.lookup k = none →
    (c ++ [(k, v)]).lookup k = some v := by
  intro c
  induction c with
  | nil => intro _; simp [List.lookup]
  | cons kv rest ih =>
    obtain ⟨a, b⟩ := kv
    intro h
    by_cases hk : k = a
    · subst hk
      rw [lookup_cons_self] at h
      exact absurd h (by simp)
    · rw [lookup_cons_ne a k b rest hk] at h
      rw [List.cons_append, lookup_cons_ne a k b _ hk]
      exact ih h

/-- cacheInsert always makes the inserted folders the value found at the
key: prior contents under the key are replaced, never merged. -/
lemma cacheInsert_lookup_self (c : List (String × List FolderEntry))
    (k : String) (v : List FolderEntry) :
    (cacheInsert c k v).lookup k = some v := by
  unfold cacheInsert
  by_cases h : (c.lookup k).isSome
  · simp only [h, if_pos]
    exact lookup_replace k v c h
  · have hn : c.lookup k = none := by
      cases hc : c.lookup k with
      | none => rfl
      | some w => rw [hc] at h; simp at h
    simp only [h, if_neg]
    exact lookup_append_self k v c hn

/-- Claim C4: when toggling a path to expanded finds it absent from the
cache, and the load succeeds with the server reporting that same path
back, the tree cache afterwards holds under that path exactly the folders
array of that response, replacing any prior contents. -/
theorem toggle_load_stores_exact_folders (env : Env) (st : FMState)
    (p t : String) (resp : ListingResp)
    (hexp : p ∉ st.expandedPaths)
    (hmiss : st.treeCache.lookup p = none)
    (htok : env.token = .ok t)
    (hlist : env.list t (toggleFolderParam p) = .ok resp)
    (hcp : jsOrStr resp.currentPath "/" = p) :
    ((toggleExpand env st p).1.treeCache).lookup p =
      some (resp.folders.getD []) := by
  unfold toggleExpand
  simp [hexp, hmiss, htok, hlist, hcp, cacheInsert_lookup_self]

/-- Claim C4 witness: expanding /docs against a gateway that lists one
child folder stores exactly that folder list under /docs. -/
theorem toggle_load_stores_exact_folders_witness :
    ((toggleExpand treeEnv initialState "/docs").1.treeCache).lookup "/docs" =
      some [⟨"sub", "/docs/sub", 1⟩] :=
  toggle_load_stores_exact_folders treeEnv initialState "/docs" "tok"
    ⟨some "/docs", some [], some [⟨"sub", "/docs/sub", 1⟩]⟩
    (by decide) (by rfl) (by rfl) (by rfl) (by rfl)

/-- Claim C7: a listing call that fails leaves the files, folders and tree
cache exactly as they were before the call and sets the generic fetch
error message. -/
theorem failed_listing_preserves_state (env : Env) (st : FMState)
    (t fp : String)
    (h : env.list t (listFolderParam fp) = .error ()) :
    (fetchFiles env st t fp).1.files = st.files ∧
    (fetchFiles env st t fp).1.folders = st.folders ∧
    (fetchFiles env st t fp).1.treeCache = st.treeCache ∧
    (fetchFiles env st t fp).1.error = some "Failed to fetch files." := by
  unfold fetchFiles
  simp [h]

/-- Claim C7 witness: a concrete failed listing keeps the prior state and
reports the fetch failure. -/
theorem failed_listing_preserves_state_witness :
    (fetchFiles listFailEnv initialState "tok" "").1.files = initialState.files ∧
    (fetchFiles listFailEnv initialState "tok" "").1.folders =
      initialState.folders ∧
    (fetchFiles listFailEnv initialState "tok" "").1.treeCache =
      initialState.treeCache ∧
    (fetchFiles listFailEnv initialState "tok" "").1.error =
      some "Failed to fetch files." :=
  failed_listing_preserves_state listFailEnv initialState "tok" "" (by rfl)

/-- Claim C5: role derivation is a pure function of the groups claim and
the three configured identifiers — with an array claim each flag holds iff
the array contains the respective identifier, an absent claim behaves as
the empty sequence, and a token with an empty groups array makes the
initialisation set all three flags false, surface the permission error and
fetch nothing. -/
theorem role_derivation_pure (cfg : GroupConfig) (gs : List Json)
    (kvs : List (String × Json)) (env : Env) (st : FMState) (token : String) :
    deriveRoles (Json.obj [("groups", Json.arr gs)]) cfg =
      .ok ⟨jsIncludesStr gs cfg.readerId, jsIncludesStr gs cfg.uploaderId,
           jsIncludesStr gs cfg.adminId⟩ ∧
    ((kvs.reverse).lookup "groups" = none →
      deriveRoles (Json.obj kvs) cfg = .ok ⟨false, false, false⟩) ∧
    (env.token = .ok token →
      decodeToken token = .ok (Json.obj [("groups", Json.arr [])]) →
      initializeComponent env cfg st =
        ({ st with userRoles := ⟨false, false, false⟩,
                   error := some "You do not have permission to access files." }, [])) := by
  refine ⟨?_, ?_, ?_⟩
  · simp [deriveRoles, getGroupsClaim, jsFalsy, jsIncludes, List.lookup]
  · intro hnone
    simp [deriveRoles, getGroupsClaim, hnone, jsIncludes, jsIncludesStr]
  · intro htok hdec
    simp [initializeComponent, htok, hdec, deriveRoles, getGroupsClaim, jsFalsy,
      jsIncludes, jsIncludesStr, List.lookup]

/-- Claim C5 witness: a payload whose groups array holds exactly the
reader identifier yields the reader flag alone; an empty payload yields no
flags; a token with an empty groups claim is denied listing access. -/
theorem role_derivation_pure_witness :
    deriveRoles (Json.obj [("groups", Json.arr [Json.str "reader-guid"])]) wCfg =
      .ok ⟨true, false, false⟩ ∧
    deriveRoles (Json.obj []) wCfg = .ok ⟨false, false, false⟩ ∧
    initializeComponent emptyGroupsEnv wCfg initialState =
      ({ initialState with
          userRoles := ⟨false, false, false⟩,
          error := some "You do not have permission to access files." }, []) := by
  obtain ⟨h1, h2, h3⟩ := role_derivation_pure wCfg [Json.str "reader-guid"] []
    emptyGroupsEnv initialState emptyGroupsToken
  exact ⟨h1.trans (by rfl), h2 (by rfl), h3 (by rfl) (by rfl)⟩

/-- Claim C6 counterexample: the token a.e30 does not have three segments,
yet decoding succeeds (its second segment decodes to the empty object),
and initialisation continues into role handling — it surfaces the
permission message, not the log-in-again initialisation failure the claim
requires for every malformed token. -/
theorem two_segment_token_still_decodes :
    (splitDots ("a.e30".toList)).length = 2 ∧
    decodeToken "a.e30" = .ok (Json.obj []) ∧
    (initializeComponent twoSegmentEnv wCfg initialState).1.error =
      some "You do not have permission to access files." ∧
    (initializeComponent twoSegmentEnv wCfg initialState).1.error ≠
      some "Failed to initialize. Please log in again." := by
  refine ⟨by rfl, by rfl, by rfl, by decide⟩

/-- Claim C6 amended: whenever token decoding fails — in particular
whenever the payload segment is missing because the token has fewer than
two dot-separated segments — the failure surfaces as the log-in-again
initialisation error with no request issued; the segment count itself is
never validated. -/
theorem decode_failure_surfaces_login_again (env : Env) (cfg : GroupConfig)
    (st : FMState) (token : String)
    (htok : env.token = .ok token)
    (hdec : decodeToken token = .error ()) :
    initializeComponent env cfg st =
      ({ st with error := some "Failed to initialize. Please log in again." }, []) ∧
    ∀ t2 : String, (splitDots t2.toList).length < 2 → decodeToken t2 = .error () := by
  constructor
  · simp [initializeComponent, htok, hdec]
  · intro t2 hlen
    unfold decodeToken
    rw [List.getElem?_eq_none (by omega)]

/-- Claim C6 amended witness: a dot-free token fails decoding and the
initialisation surfaces the log-in-again error. -/
theorem decode_failure_surfaces_login_again_witness :
    initializeComponent badTokenEnv wCfg initialState =
      ({ initialState with
          error := some "Failed to initialize. Please log in again." }, []) :=
  (decode_failure_surfaces_login_again badTokenEnv wCfg initialState
    "garbage" (by rfl) (by rfl)).1

/-- Every request fetchFiles issues is a listing request. -/
lemma fetchFiles_kinds (env : Env) (st : FMState) (t fp : String) :
    ∀ r ∈ (fetchFiles env st t fp).2, ∃ fo, r.kind = ReqKind.listReq fo := by
  intro r hr
  unfold fetchFiles at hr
  simp only [] at hr
  cases h1 : env.list t (listFolderParam fp) with
  | error e =>
    rw [h1] at hr
    simp at hr
    subst hr
    exact ⟨listFolderParam fp, rfl⟩
  | ok resp =>
    rw [h1] at hr
    simp only [List.mem_cons] at hr
    rcases hr with hr | hr
    · subst hr
      exact ⟨listFolderParam fp, rfl⟩
    · by_cases hcp : jsOrStr resp.currentPath "/" ≠ "/"
      · rw [if_pos hcp] at hr
        cases h2 : env.list t none with
        | ok rresp =>
          rw [h2] at hr
          simp at hr
          subst hr
          exact ⟨none, rfl⟩
        | error e =>
          rw [h2] at hr
          simp at hr
          subst hr
          exact ⟨none, rfl⟩
      · rw [if_neg hcp] at hr
        simp at hr

/-- A trace with no upload-carrying request has an empty uploadish part. -/
lemma uploadishOf_eq_nil (l : List HttpReq)
    (h : ∀ r ∈ l, isUploadish r.kind = false) : uploadishOf l = [] := by
  unfold uploadishOf
  rw [List.filter_eq_nil_iff]
  intro a ha
  rw [List.mem_map] at ha
  obtain ⟨r, hr, rfl⟩ := ha
  simp [h r hr]

/-- A trace with no existence poll has a zero poll count. -/
lemma existsCountOf_eq_zero (l : List HttpReq)
    (h : ∀ r ∈ l, isExistsReq r.kind = false) : existsCountOf l = 0 := by
  unfold existsCountOf
  rw [List.filter_eq_nil_iff.mpr, List.length_nil]
  intro a ha
  rw [List.mem_map] at ha
  obtain ⟨r, hr, rfl⟩ := ha
  simp [h r hr]

/-- Counting existence polls through a cons. -/
lemma existsCountOf_cons (r : HttpReq) (l : List HttpReq) :
    existsCountOf (r :: l) =
      (if isExistsReq r.kind then 1 else 0) + existsCountOf l := by
  by_cases h : isExistsReq r.kind
  · simp [existsCountOf, List.filter_cons, h, Nat.add_comm]
  · simp [existsCountOf, List.filter_cons, h]

/-- When no attempt between the current one and the maximum answers true,
the polling loop runs through all its remaining attempts, polls exactly
once per attempt, never refreshes, and returns the state unchanged. -/
lemma pollLoop_no_true (env : Env) (token p : String) (st : FMState) :
    ∀ fuel attempts, attempts + fuel = maxAttempts →
    (∀ b, attempts < b → b ≤ maxAttempts → env.existsCheck b p ≠ .ok true) →
    pollLoop env token p st fuel attempts =
      (st, List.replicate fuel ⟨token, .existsReq p⟩, false) := by
  intro fuel
  induction fuel with
  | zero => intro attempts h1 h2; simp [pollLoop]
  | succ fuel ih =>
    intro attempts hsum hno
    have hne := hno (attempts + 1) (by omega) (by omega)
    cases hc : env.existsCheck (attempts + 1) p with
    | ok b =>
      cases b with
      | true => exact absurd hc hne
      | false =>
        by_cases hge : maxAttempts ≤ attempts + 1
        · have hf : fuel = 0 := by omega
          subst hf
          simp [pollLoop, hc, hge, List.replicate]
        · have hrec := ih (attempts + 1) (by omega)
            (fun b hb1 hb2 => hno b (by omega) hb2)
          simp [pollLoop, hc, hge, hrec, List.replicate_succ]
    | error e =>
      by_cases hge : maxAttempts ≤ attempts + 1
      · have hf : fuel = 0 := by omega
        subst hf
        simp [pollLoop, hc, hge, List.replicate]
      · have hrec := ih (attempts + 1) (by omega)
          (fun b hb1 hb2 => hno b (by omega) hb2)
        simp [pollLoop, hc, hge, hrec, List.replicate_succ]

/-- Whatever the gateway answers, the polling loop issues at most as many
existence polls as it has fuel (instantiated at the attempt maximum). -/
lemma pollLoop_exists_le (env : Env) (token p : String) (st : FMState) :
    ∀ fuel attempts,
    existsCountOf (pollLoop env token p st fuel attempts).2.1 ≤ fuel := by
  intro fuel
  induction fuel with
  | zero => intro attempts; simp [pollLoop, existsCountOf]
  | succ fuel ih =>
    intro attempts
    have hfetch : ∀ refreshFolder,
        existsCountOf (fetchFiles env st token refreshFolder).2 = 0 := by
      intro refreshFolder
      apply existsCountOf_eq_zero
      intro r hr
      obtain ⟨fo, hk⟩ := fetchFiles_kinds env st token refreshFolder r hr
      rw [hk]
      rfl
    cases hc : env.existsCheck (attempts + 1) p with
    | ok b =>
      cases b with
      | true =>
        simp only [pollLoop, hc]
        rw [existsCountOf_cons, hfetch]
        simp [isExistsReq]
      | false =>
        by_cases hge : maxAttempts ≤ attempts + 1
        · simp only [pollLoop, hc, if_pos hge]
          rw [existsCountOf_cons]
          simp [isExistsReq, existsCountOf]
        · simp only [pollLoop, hc, if_neg hge]
          rw [existsCountOf_cons]
          have := ih (attempts + 1)
          simp only [isExistsReq, if_pos]
          omega
    | error e =>
      by_cases hge : maxAttempts ≤ attempts + 1
      · simp only [pollLoop, hc, if_pos hge]
        rw [existsCountOf_cons]
        simp [isExistsReq, existsCountOf]
      · simp only [pollLoop, hc, if_neg hge]
        rw [existsCountOf_cons]
        have := ih (attempts + 1)
        simp only [isExistsReq, if_pos]
        omega

/-- Claim C8: with the constants maxAttempts = 100 and a 3000 ms interval,
a polling run in which no attempt up to the maximum reports existence —
whether the attempts report absence or fail outright — performs exactly
one hundred polls, terminates by itself without refreshing the listing
and without failing, leaves the state untouched, and no run whatever the
gateway does polls more than one hundred times. -/
theorem poll_loop_bounded_exhaustion (env : Env) (token p : String)
    (st : FMState)
    (hnotrue : ∀ b, 1 ≤ b → b ≤ maxAttempts → env.existsCheck b p ≠ .ok true) :
    pollLoop env token p st maxAttempts 0 =
      (st, List.replicate maxAttempts ⟨token, .existsReq p⟩, false) ∧
    maxAttempts = 100 ∧ pollIntervalMs = 3000 ∧
    (∀ env2 : Env,
      existsCountOf (pollLoop env2 token p st maxAttempts 0).2.1 ≤ maxAttempts) := by
  refine ⟨?_, rfl, rfl, ?_⟩
  · exact pollLoop_no_true env token p st maxAttempts 0 (by omega)
      (fun b hb1 hb2 => hnotrue b hb1 hb2)
  · intro env2
    exact pollLoop_exists_le env2 token p st maxAttempts 0

/-- Claim C8 witness: against a gateway that always reports absence, the
loop runs its hundred polls and stops with the state unchanged and no
refresh. -/
theorem poll_loop_bounded_exhaustion_witness :
    pollLoop okEnv "tok" "p.txt" initialState maxAttempts 0 =
      (initialState, List.replicate maxAttempts ⟨"tok", .existsReq "p.txt"⟩,
        false) :=
  (poll_loop_bounded_exhaustion okEnv "tok" "p.txt" initialState
    (fun _ _ _ h => Bool.noConfusion (Except.ok.inj h))).1

/-- uploadishOf distributes over concatenation. -/
lemma uploadishOf_append (l1 l2 : List HttpReq) :
    uploadishOf (l1 ++ l2) = uploadishOf l1 ++ uploadishOf l2 := by
  simp [uploadishOf, List.filter_append]

/-- A non-uploadish head drops out of uploadishOf. -/
lemma uploadishOf_cons_skip (r : HttpReq) (l : List HttpReq)
    (h : isUploadish r.kind = false) : uploadishOf (r :: l) = uploadishOf l := by
  simp [uploadishOf, List.filter_cons, h]

/-- An uploadish head stays at the front of uploadishOf. -/
lemma uploadishOf_cons_keep (r : HttpReq) (l : List HttpReq)
    (h : isUploadish r.kind = true) :
    uploadishOf (r :: l) = r.kind :: uploadishOf l := by
  simp [uploadishOf, List.filter_cons, h]

/-- fetchFiles never issues an upload-carrying request. -/
lemma fetchFiles_no_uploadish (env : Env) (st : FMState) (t fp : String) :
    uploadishOf (fetchFiles env st t fp).2 = [] :=
  uploadishOf_eq_nil _ (fun r hr => by
    obtain ⟨fo, hk⟩ := fetchFiles_kinds env st t fp r hr
    rw [hk]; rfl)

/-- The polling loop never issues an upload-carrying request, whatever
the gateway answers. -/
lemma pollLoop_no_uploadish (env : Env) (token p : String) (st : FMState) :
    ∀ fuel attempts, uploadishOf (pollLoop env token p st fuel attempts).2.1 = [] := by
  intro fuel
  induction fuel with
  | zero => intro attempts; simp [pollLoop, uploadishOf]
  | succ fuel ih =>
    intro attempts
    cases hc : env.existsCheck (attempts + 1) p with
    | ok b =>
      cases b with
      | true =>
        simp only [pollLoop, hc]
        rw [uploadishOf_cons_skip _ _ (by rfl), fetchFiles_no_uploadish]
      | false =>
        by_cases hge : maxAttempts ≤ attempts + 1
        · simp only [pollLoop, hc, if_pos hge]
          simp [uploadishOf, isUploadish]
        · simp only [pollLoop, hc, if_neg hge]
          rw [uploadishOf_cons_skip _ _ (by rfl)]
          exact ih (attempts + 1)
    | error e =>
      by_cases hge : maxAttempts ≤ attempts + 1
      · simp only [pollLoop, hc, if_pos hge]
        simp [uploadishOf, isUploadish]
      · simp only [pollLoop, hc, if_neg hge]
        rw [uploadishOf_cons_skip _ _ (by rfl)]
        exact ih (attempts + 1)

/-- When every chunk request succeeds, the chunk loop issues exactly one
chunk request per index, in the order of the index list, and succeeds. -/
lemma chunkLoop_all_ok (env : Env) (token fname folder : String) (total : Nat) :
    ∀ (idxs : List Nat) (st : FMState),
    (∀ i ∈ idxs, env.chunk token fname i total folder = .ok ()) →
    (chunkLoop env token fname folder total st idxs).2 =
      (idxs.map (fun i => (⟨token, .chunkReq fname i total folder⟩ : HttpReq)),
        true) := by
  intro idxs
  induction idxs with
  | nil => intro st _; simp [chunkLoop]
  | cons i rest ih =>
    intro st h
    have hi : env.chunk token fname i total folder = .ok () := h i (by simp)
    have hrec := ih { st with uploadProgress := some ⟨i + 1, total, fname, false⟩ }
      (fun j hj => h j (List.mem_cons_of_mem _ hj))
    simp only [chunkLoop, hi]
    rw [hrec]
    simp

/-- The commit step after a successful chunk loop appends exactly one
commit request to the loop's trace and succeeds. -/
lemma commitStep_trace (env : Env) (token : String) (file : JsFile)
    (total : Nat) (folder : String) (r : FMState × List HttpReq × Bool)
    (tr : List HttpReq)
    (hr : r.2 = (tr, true))
    (hcommit : env.commit token file.name total (contentTypeOf file) folder =
      .ok ()) :
    (commitStep env token file total folder r).2 =
      (tr ++ [⟨token, .commitReq file.name total (contentTypeOf file) folder⟩],
        true) := by
  obtain ⟨s, tl, fl⟩ := r
  injection hr with h1 h2
  subst h1
  subst h2
  simp [commitStep, hcommit]

/-- When every chunk and the commit succeed, the chunked flow's trace is
the chunk requests for indices zero up to the chunk count in increasing
order, followed by the single commit request carrying the filename, chunk
count, content type and folder; and the flow succeeds. -/
lemma handleChunkedUpload_all_ok (env : Env) (st : FMState) (file : JsFile)
    (token : String)
    (hchunk : ∀ i, env.chunk token file.name i (totalChunksOf file.size)
      (chunkFolderOf st.currentPath) = .ok ())
    (hcommit : env.commit token file.name (totalChunksOf file.size)
      (contentTypeOf file) (chunkFolderOf st.currentPath) = .ok ()) :
    (handleChunkedUpload env st file token).2 =
      ((List.range (totalChunksOf file.size)).map
        (fun i => (⟨token, .chunkReq file.name i (totalChunksOf file.size)
          (chunkFolderOf st.currentPath)⟩ : HttpReq)) ++
       [⟨token, .commitReq file.name (totalChunksOf file.size)
          (contentTypeOf file) (chunkFolderOf st.currentPath)⟩], true) := by
  have h1 := chunkLoop_all_ok env token file.name (chunkFolderOf st.currentPath)
    (totalChunksOf file.size) (List.range (totalChunksOf file.size))
    { st with uploadProgress := some ⟨0, totalChunksOf file.size, file.name, false⟩ }
    (fun i _ => hchunk i)
  exact commitStep_trace env token file (totalChunksOf file.size)
    (chunkFolderOf st.currentPath) _ _ h1 hcommit

/-- The uploadish part of a chunk trace followed by a commit is exactly
those kinds. -/
lemma uploadishOf_chunk_commit (t f : String) (n : Nat) (ct fo : String) :
    uploadishOf ((List.range n).map
        (fun i => (⟨t, .chunkReq f i n fo⟩ : HttpReq)) ++
      [⟨t, .commitReq f n ct fo⟩]) =
      (List.range n).map (fun i => ReqKind.chunkReq f i n fo) ++
        [ReqKind.commitReq f n ct fo] := by
  rw [uploadishOf_append]
  congr 1
  · unfold uploadishOf
    rw [List.map_map]
    have hcomp : (HttpReq.kind ∘ fun i => (⟨t, .chunkReq f i n fo⟩ : HttpReq)) =
        fun i => ReqKind.chunkReq f i n fo := rfl
    rw [hcomp]
    apply List.filter_eq_self.mpr
    intro a ha
    rw [List.mem_map] at ha
    obtain ⟨i, _, rfl⟩ := ha
    rfl

/-- handleUpload dispatches a selected over-threshold file to the chunked
flow applied to the chunk-and-commit result. -/
lemma handleUpload_chunked (env : Env) (st : FMState) (file : JsFile)
    (t : String)
    (hsel : st.selectedFile = some file)
    (htok : env.token = .ok t)
    (hsize : USE_CHUNKED_THRESHOLD < file.size) :
    handleUpload env st =
      uploadChunkedFlow env t
        (handleChunkedUpload env { st with loading := true } file t) := by
  unfold handleUpload
  rw [hsel]
  simp only [htok, if_pos hsize]

/-- handleUpload dispatches a selected at-or-under-threshold file to the
single-request flow. -/
lemma handleUpload_single (env : Env) (st : FMState) (file : JsFile)
    (t : String)
    (hsel : st.selectedFile = some file)
    (htok : env.token = .ok t)
    (hsize : ¬ USE_CHUNKED_THRESHOLD < file.size) :
    handleUpload env st = uploadSingleFlow env { st with loading := true } file t := by
  unfold handleUpload
  rw [hsel]
  simp only [htok, if_neg hsize]

/-- After a successful chunked flow, the continuation only adds listing
requests: the upload-carrying part of the trace is the loop-and-commit
trace's. -/
lemma uploadChunkedFlow_uploadish (env : Env) (token : String)
    (r : FMState × List HttpReq × Bool) (tr : List HttpReq)
    (hr : r.2 = (tr, true)) :
    uploadishOf (uploadChunkedFlow env token r).2 = uploadishOf tr := by
  obtain ⟨s, tl, fl⟩ := r
  injection hr with h1 h2
  subst h1
  subst h2
  simp only [uploadChunkedFlow, if_pos]
  rw [uploadishOf_append, fetchFiles_no_uploadish, List.append_nil]

/-- The single-request flow's trace carries exactly one upload request —
whether the request succeeds (polling follows, adding no upload-carrying
request) or fails. -/
lemma uploadSingleFlow_uploadish (env : Env) (st : FMState) (file : JsFile)
    (token : String) :
    uploadishOf (uploadSingleFlow env st file token).2 =
      [ReqKind.uploadReq (uploadFolderParamOf st.currentPath)] := by
  unfold uploadSingleFlow
  cases hu : env.upload token (if (if st.currentPath = "/" then ""
      else st.currentPath) = "" then none
    else some (if st.currentPath = "/" then "" else st.currentPath)) with
  | error e =>
    simp only [hu]
    simp [uploadishOf, isUploadish, uploadFolderParamOf]
  | ok resp =>
    simp only [hu]
    rw [uploadishOf_cons_keep _ _ (by rfl), pollLoop_no_uploadish]
    simp [uploadFolderParamOf]

/-- Claim C1: with a selected file and an acquired token (and, for the
chunked flow, chunk and commit requests the gateway accepts), a file at or
below the 100 MiB threshold sends exactly one upload request and no chunk
or commit request, while a file above it sends exactly the ceiling of
size over 50 MiB chunk requests with indices strictly increasing from
zero — each awaited before the next starts, which the sequential
embedding renders as trace order — followed by exactly one commit request
carrying the filename, chunk count, content type and folder. -/
theorem upload_request_counts (env : Env) (st : FMState) (file : JsFile)
    (t : String)
    (hsel : st.selectedFile = some file)
    (htok : env.token = .ok t)
    (hchunk : ∀ i, env.chunk t file.name i (totalChunksOf file.size)
      (chunkFolderOf st.currentPath) = .ok ())
    (hcommit : env.commit t file.name (totalChunksOf file.size)
      (contentTypeOf file) (chunkFolderOf st.currentPath) = .ok ()) :
    uploadishOf (handleUpload env st).2 =
      if USE_CHUNKED_THRESHOLD < file.size then
        (List.range (totalChunksOf file.size)).map
          (fun i => ReqKind.chunkReq file.name i (totalChunksOf file.size)
            (chunkFolderOf st.currentPath))
        ++ [ReqKind.commitReq file.name (totalChunksOf file.size)
            (contentTypeOf file) (chunkFolderOf st.currentPath)]
      else
        [ReqKind.uploadReq (uploadFolderParamOf st.currentPath)] := by
  by_cases hsize : USE_CHUNKED_THRESHOLD < file.size
  · rw [handleUpload_chunked env st file t hsel htok hsize, if_pos hsize]
    have h2 := handleChunkedUpload_all_ok env { st with loading := true } file t
      hchunk hcommit
    rw [uploadChunkedFlow_uploadish env t _ _ h2]
    exact uploadishOf_chunk_commit t file.name (totalChunksOf file.size)
      (contentTypeOf file) (chunkFolderOf st.currentPath)
  · rw [handleUpload_single env st file t hsel htok hsize, if_neg hsize]
    exact uploadSingleFlow_uploadish env { st with loading := true } file t

/-- Claim C1 witness: the 150 MiB file at the root against an
all-accepting gateway sends chunks 0, 1, 2 and one commit. -/
theorem upload_request_counts_witness :
    uploadishOf (handleUpload okEnv bigFileState).2 =
      if USE_CHUNKED_THRESHOLD < bigFile.size then
        (List.range (totalChunksOf bigFile.size)).map
          (fun i => ReqKind.chunkReq bigFile.name i (totalChunksOf bigFile.size)
            (chunkFolderOf bigFileState.currentPath))
        ++ [ReqKind.commitReq bigFile.name (totalChunksOf bigFile.size)
            (contentTypeOf bigFile) (chunkFolderOf bigFileState.currentPath)]
      else
        [ReqKind.uploadReq (uploadFolderParamOf bigFileState.currentPath)] :=
  upload_request_counts okEnv bigFileState bigFile "tok"
    (by rfl) (by rfl) (fun _ => by rfl) (by rfl)

end StorageWrapper
